import Mathlib

/-!
Verification of the gitwiki scanner (main.go) against its specification.

The Go program is shallowly embedded: pure string manipulation becomes
Lean functions on `String`; the GitHub API, the HTTP transport and the
process clock become explicit oracle functions supplied as arguments;
the unbounded `for` loop of the repository lister becomes a fuel-indexed
recursion whose `none` result means "execution not yet determined by the
given fuel" (or a nil-pointer dereference the Go code would crash on).
Every I/O action the program performs (API lookups, page fetches, HTTP
GETs, rate-limit sleeps) is recorded in an event trace so that claims
about which requests are issued, and in which order, are provable.
-/

namespace GitWiki

/-- Model of Go strings.HasPrefix: byte/char-level test that the second
string is a leading segment of the first. -/
def goStartsWith (s pre : String) : Bool :=
  pre.data.isPrefixOf s.data

/-- Model of Go strings.TrimPrefix: removes the leading occurrence of
the given leading segment, if present; otherwise returns the string
unchanged. -/
def goTrimStart (s pre : String) : String :=
  if goStartsWith s pre then ⟨s.data.drop pre.data.length⟩ else s

/-- Substring search on character lists: does the second list occur as a
contiguous run inside the first? (Model of Go strings.Contains after
converting both strings to their character lists.) -/
def listHasRun (s sub : List Char) : Bool :=
  sub.isPrefixOf s ||
    match s with
    | [] => false
    | _ :: t => listHasRun t sub

/-- Model of Go strings.Contains s sub. -/
def goContains (s sub : String) : Bool :=
  listHasRun s.data sub.data

/-- Model of Go strings.TrimSpace (whitespace stripped from both ends). -/
def goTrimSpace (s : String) : String :=
  s.trim

/-- Constant wikiFirstPageMarker from main.go. -/
def wikiFirstPageMarker : String := "Create the first page"

/-- Constant wikiTestPagePath from main.go. -/
def wikiTestPagePath : String := "/notrealpage"

/-- Constant maxResponseSize from main.go: 10 * 1024 * 1024 bytes. -/
def maxResponseSize : Nat := 10 * 1024 * 1024

/-- The Repository struct of main.go. -/
structure Repository where
  name : String
  url : String
  hasWiki : Bool
  isPublic : Bool
deriving DecidableEq, Repr

/-- The github.ListOptions carried by the repository lister:
PerPage is set once to 100, Page is advanced by the pagination loop. -/
structure ListOptions where
  perPage : Nat
  page : Nat
deriving DecidableEq, Repr

/-- Observable I/O events of the embedded program, in program order:
GitHub API organization/user lookups, repository list fetches (with the
endpoint chosen, the account name and the list options sent), rate-limit
sleeps (with their duration), and raw HTTP GETs of wiki pages. -/
inductive Ev where
  | lookupOrg (name : String)
  | lookupUser (name : String)
  | fetch (endpoint : String) (name : String) (opts : ListOptions)
  | sleep (d : Int)
  | httpGet (url : String)
deriving DecidableEq, Repr

/-- parseAccountInput from main.go: recognizes the literal leading
markers "org:" and "user:" and strips the one that matched. -/
def parseAccountInput (input : String) : String × String :=
  if goStartsWith input "org:" then ("org", goTrimStart input "org:")
  else if goStartsWith input "user:" then ("user", goTrimStart input "user:")
  else ("unknown", input)

theorem goStartsWith_append (pre x : String) :
    goStartsWith (pre ++ x) pre = true := by
  simp [goStartsWith, String.data_append, List.isPrefixOf_iff_prefix]

theorem goTrimStart_append (pre x : String) :
    goTrimStart (pre ++ x) pre = x := by
  simp [goTrimStart, goStartsWith_append, String.data_append]

theorem goStartsWith_user_org (x : String) :
    goStartsWith ("user:" ++ x) "org:" = false := by
  have h : ("user:" ++ x).data = 'u' :: 's' :: 'e' :: 'r' :: ':' :: x.data := by
    simp [String.data_append]
  simp [goStartsWith, h, List.isPrefixOf]

/-- C3: parseAccountInput maps "org:X" to ("org", X), "user:X" to
("user", X), a string with neither leading marker to ("unknown", itself)
— in particular "" to ("unknown", "") — and strips only the first
occurrence, so "org:a:b" maps to ("org", "a:b"). -/
theorem parseAccountInput_spec :
    (∀ x : String, parseAccountInput ("org:" ++ x) = ("org", x)) ∧
    (∀ x : String, parseAccountInput ("user:" ++ x) = ("user", x)) ∧
    (∀ s : String, goStartsWith s "org:" = false → goStartsWith s "user:" = false →
      parseAccountInput s = ("unknown", s)) ∧
    parseAccountInput "" = ("unknown", "") ∧
    parseAccountInput "org:a:b" = ("org", "a:b") := by
  refine ⟨?_, ?_, ?_, ?_, ?_⟩
  · intro x
    simp [parseAccountInput, goStartsWith_append, goTrimStart_append]
  · intro x
    simp [parseAccountInput, goStartsWith_user_org,
      goStartsWith_append, goTrimStart_append]
  · intro s h1 h2
    simp [parseAccountInput, h1, h2]
  · rfl
  · rfl

/-- Witness for C3 at concrete inputs: "inputstring" has neither leading
marker and parses as an unknown-kind account. -/
theorem parseAccountInput_spec_witness :
    parseAccountInput "inputstring" = ("unknown", "inputstring") :=
  parseAccountInput_spec.2.2.1 "inputstring" (by decide) (by decide)

/-- An HTTP response as the probe sees it: the status code, whether
reading the body (io.ReadAll on the limited reader) succeeds, and the
body delivered by the transport. -/
structure HttpResponse where
  statusCode : Nat
  bodyReadOk : Bool
  body : String
deriving DecidableEq, Repr

/-- The environment of checkWiki: whether url.Parse accepts a URL, and
the redirect-suppressing HTTP client (none models a transport error). -/
structure WikiEnv where
  urlParses : String → Bool
  get : String → Option HttpResponse

/-- What one checkWiki call observably does: the stdout lines it prints
and the HTTP GETs it issues, in order. (Diagnostic log lines go to the
logger, not stdout, and are not part of stdout here.) -/
structure WikiOut where
  stdout : List String
  events : List Ev
deriving DecidableEq, Repr

/-- io.ReadAll over io.LimitReader(body, maxResponseSize): at most
maxResponseSize units of the body are read. -/
def limitRead (s : String) : String :=
  ⟨s.data.take maxResponseSize⟩

/-- checkWiki from main.go. Returns without output when the wiki flag is
off or the URL does not parse; GETs repo.url ++ "/wiki"; on a 200
response whose body holds the first-page marker prints the firstpage
line and stops; otherwise GETs the notrealpage probe URL and prints the
writeable line exactly when that second response is a 200. -/
def checkWiki (env : WikiEnv) (repo : Repository) : WikiOut :=
  if !repo.hasWiki then ⟨[], []⟩
  else if !env.urlParses repo.url then ⟨[], []⟩
  else
    let wikiURL := repo.url ++ "/wiki"
    match env.get wikiURL with
    | none => ⟨[], [.httpGet wikiURL]⟩
    | some resp =>
      if resp.statusCode ≠ 200 then ⟨[], [.httpGet wikiURL]⟩
      else if !resp.bodyReadOk then ⟨[], [.httpGet wikiURL]⟩
      else
        let bodyStr := limitRead resp.body
        if goContains bodyStr wikiFirstPageMarker then
          ⟨["Vulnerable [firstpage]: " ++ repo.name ++ " - " ++ wikiURL],
           [.httpGet wikiURL]⟩
        else
          let testURL := wikiURL ++ wikiTestPagePath
          match env.get testURL with
          | none => ⟨[], [.httpGet wikiURL, .httpGet testURL]⟩
          | some testResp =>
            if testResp.statusCode = 200 then
              ⟨["Vulnerable [writeable]: " ++ repo.name ++ " - " ++ testURL],
               [.httpGet wikiURL, .httpGet testURL]⟩
            else ⟨[], [.httpGet wikiURL, .httpGet testURL]⟩

/-- C1: for a repository with the wiki flag set and a parseable URL,
when the GET of repo.url ++ "/wiki" yields a 200 whose (read) body holds
the literal marker "Create the first page", checkWiki prints exactly the
one firstpage line and issues exactly one HTTP request. -/
theorem checkWiki_firstpage (env : WikiEnv) (repo : Repository) (resp : HttpResponse)
    (hw : repo.hasWiki = true)
    (hp : env.urlParses repo.url = true)
    (hg : env.get (repo.url ++ "/wiki") = some resp)
    (hs : resp.statusCode = 200)
    (hb : resp.bodyReadOk = true)
    (hm : goContains (limitRead resp.body) wikiFirstPageMarker = true) :
    checkWiki env repo =
      ⟨["Vulnerable [firstpage]: " ++ repo.name ++ " - " ++ (repo.url ++ "/wiki")],
       [.httpGet (repo.url ++ "/wiki")]⟩ := by
  simp [checkWiki, hw, hp, hg, hs, hb, hm]

/-- Witness for C1: a concrete repository and transport exercising the
firstpage classification. -/
theorem checkWiki_firstpage_witness :
    checkWiki
      ⟨fun _ => true,
       fun u => if u = "https://github.com/o/r/wiki"
         then some ⟨200, true, "<p>Create the first page</p>"⟩ else none⟩
      ⟨"r", "https://github.com/o/r", true, true⟩ =
      ⟨["Vulnerable [firstpage]: r - https://github.com/o/r/wiki"],
       [.httpGet "https://github.com/o/r/wiki"]⟩ :=
  checkWiki_firstpage _ _ ⟨200, true, "<p>Create the first page</p>"⟩
    rfl rfl (by decide) rfl rfl (by decide)

/-- C2: for a repository with the wiki flag set and a parseable URL,
when the GET of the wiki URL yields a 200 whose body lacks the marker,
checkWiki issues a second GET to the notrealpage probe URL; if that
second response is a 200 it prints exactly the one writeable line, and
if it has any other status it prints nothing. -/
theorem checkWiki_writeable (env : WikiEnv) (repo : Repository) (resp : HttpResponse)
    (hw : repo.hasWiki = true)
    (hp : env.urlParses repo.url = true)
    (hg : env.get (repo.url ++ "/wiki") = some resp)
    (hs : resp.statusCode = 200)
    (hb : resp.bodyReadOk = true)
    (hm : goContains (limitRead resp.body) wikiFirstPageMarker = false) :
    ((env.get (repo.url ++ "/wiki" ++ wikiTestPagePath)).isSome →
      (checkWiki env repo).events =
        [.httpGet (repo.url ++ "/wiki"),
         .httpGet (repo.url ++ "/wiki" ++ wikiTestPagePath)]) ∧
    (∀ testResp : HttpResponse,
      env.get (repo.url ++ "/wiki" ++ wikiTestPagePath) = some testResp →
      (testResp.statusCode = 200 →
        (checkWiki env repo).stdout =
          ["Vulnerable [writeable]: " ++ repo.name ++ " - "
            ++ (repo.url ++ "/wiki" ++ wikiTestPagePath)]) ∧
      (testResp.statusCode ≠ 200 → (checkWiki env repo).stdout = [])) := by
  constructor
  · intro hsome
    rcases Option.isSome_iff_exists.mp hsome with ⟨t, ht⟩
    by_cases h200 : t.statusCode = 200 <;>
      simp [checkWiki, hw, hp, hg, hs, hb, hm, ht, h200]
  · intro t ht
    constructor
    · intro h200
      simp [checkWiki, hw, hp, hg, hs, hb, hm, ht, h200]
    · intro h200
      simp [checkWiki, hw, hp, hg, hs, hb, hm, ht, h200]

/-- Witness for C2: a concrete repository whose wiki body lacks the
marker and whose notrealpage probe is answered by a redirect (302), so
nothing is printed while both GETs are issued. -/
theorem checkWiki_writeable_witness :
    (checkWiki
      ⟨fun _ => true,
       fun u => if u = "https://github.com/o/r/wiki"
         then some ⟨200, true, "<p>Home page</p>"⟩
         else if u = "https://github.com/o/r/wiki/notrealpage"
         then some ⟨302, true, ""⟩ else none⟩
      ⟨"r", "https://github.com/o/r", true, true⟩).events =
      [.httpGet "https://github.com/o/r/wiki",
       .httpGet "https://github.com/o/r/wiki/notrealpage"] ∧
    (checkWiki
      ⟨fun _ => true,
       fun u => if u = "https://github.com/o/r/wiki"
         then some ⟨200, true, "<p>Home page</p>"⟩
         else if u = "https://github.com/o/r/wiki/notrealpage"
         then some ⟨302, true, ""⟩ else none⟩
      ⟨"r", "https://github.com/o/r", true, true⟩).stdout = [] := by
  have h := checkWiki_writeable
    ⟨fun _ => true,
     fun u => if u = "https://github.com/o/r/wiki"
       then some ⟨200, true, "<p>Home page</p>"⟩
       else if u = "https://github.com/o/r/wiki/notrealpage"
       then some ⟨302, true, ""⟩ else none⟩
    ⟨"r", "https://github.com/o/r", true, true⟩
    ⟨200, true, "<p>Home page</p>"⟩
    rfl rfl (by decide) rfl rfl (by decide)
  exact ⟨h.1 (by decide), (h.2 ⟨302, true, ""⟩ (by decide)).2 (by decide)⟩

/-- The (object, response, error) triple a go-github lookup returns:
whether the object pointer is non-nil, the response status code (none
models a nil response), and the error message (none models a nil
error). -/
structure ApiCall where
  obj : Bool
  resp : Option Nat
  err : Option String
deriving DecidableEq, Repr

/-- The GitHub account-metadata API: client.Organizations.Get and
client.Users.Get, as oracle functions of the account name. -/
structure AccountApi where
  orgGet : String → ApiCall
  userGet : String → ApiCall

/-- The Go test resp != nil && resp.StatusCode == 404. -/
def respIs404 : Option Nat → Bool
  | some st => st == 404
  | none => false

/-- getAccountType from main.go, instrumented with the trace of API
lookups it performs. The value component is the Go (string, error)
return pair, with error none modelling a nil error. -/
def getAccountType (api : AccountApi) (name : String) :
    (String × Option String) × List Ev :=
  let o := api.orgGet name
  if o.err.isNone && o.obj then (("org", none), [.lookupOrg name])
  else if respIs404 o.resp then
    let u := api.userGet name
    if u.err.isNone && u.obj then
      (("user", none), [.lookupOrg name, .lookupUser name])
    else if respIs404 u.resp then
      (("", some ("account '" ++ name ++ "' not found")),
       [.lookupOrg name, .lookupUser name])
    else (("", u.err), [.lookupOrg name, .lookupUser name])
  else (("", o.err), [.lookupOrg name])

/-- C4: getAccountType queries the organization lookup first and queries
the user lookup only when the organization lookup failed with HTTP 404;
when both lookups come back 404 it returns the account-not-found error;
and a failed lookup whose status is not 404 has its error returned to
the caller unchanged. -/
theorem getAccountType_spec (api : AccountApi) (name : String) :
    ((getAccountType api name).2 =
      if ¬(((api.orgGet name).err.isNone && (api.orgGet name).obj) = true)
          ∧ respIs404 (api.orgGet name).resp = true
      then [.lookupOrg name, .lookupUser name]
      else [.lookupOrg name]) ∧
    (¬(((api.orgGet name).err.isNone && (api.orgGet name).obj) = true) →
      respIs404 (api.orgGet name).resp = true →
      ¬(((api.userGet name).err.isNone && (api.userGet name).obj) = true) →
      respIs404 (api.userGet name).resp = true →
      (getAccountType api name).1 =
        ("", some ("account '" ++ name ++ "' not found"))) ∧
    (∀ e : String, (api.orgGet name).err = some e →
      respIs404 (api.orgGet name).resp = false →
      (getAccountType api name).1 = ("", some e)) ∧
    (∀ e : String, ¬(((api.orgGet name).err.isNone && (api.orgGet name).obj) = true) →
      respIs404 (api.orgGet name).resp = true →
      (api.userGet name).err = some e →
      respIs404 (api.userGet name).resp = false →
      (getAccountType api name).1 = ("", some e)) := by
  refine ⟨?_, ?_, ?_, ?_⟩
  · by_cases ho : ((api.orgGet name).err.isNone && (api.orgGet name).obj) = true
    · simp [getAccountType, ho]
    · by_cases h404 : respIs404 (api.orgGet name).resp = true
      · by_cases hu : ((api.userGet name).err.isNone && (api.userGet name).obj) = true
        · simp [getAccountType, ho, h404, hu]
        · by_cases hu404 : respIs404 (api.userGet name).resp = true <;>
            simp [getAccountType, ho, h404, hu, hu404]
      · simp [getAccountType, ho, h404]
  · intro ho h404 hu hu404
    simp [getAccountType, ho, h404, hu, hu404]
  · intro e he h404
    have ho : ¬(((api.orgGet name).err.isNone && (api.orgGet name).obj) = true) := by
      simp [he]
    simp [getAccountType, ho, h404, he]
  · intro e ho h404 hue hu404
    simp [getAccountType, ho, h404, hue, hu404]

/-- Witness for C4: an API whose organization lookup fails with a 500
and a network error message; the resolver queries only the organization
endpoint and surfaces the error unchanged. -/
theorem getAccountType_spec_witness :
    (getAccountType
      ⟨fun _ => ⟨false, some 500, some "network down"⟩,
       fun _ => ⟨true, some 200, none⟩⟩ "acct").1 = ("", some "network down") ∧
    (getAccountType
      ⟨fun _ => ⟨false, some 500, some "network down"⟩,
       fun _ => ⟨true, some 200, none⟩⟩ "acct").2 = [.lookupOrg "acct"] := by
  have h := getAccountType_spec
    ⟨fun _ => ⟨false, some 500, some "network down"⟩,
     fun _ => ⟨true, some 200, none⟩⟩ "acct"
  refine ⟨h.2.2.1 "network down" rfl rfl, ?_⟩
  have h1 := h.1
  simpa using h1

/-- A repository record as returned by the GitHub list API (the fields
main.go reads off the go-github Repository). -/
structure ApiRepo where
  name : String
  htmlURL : String
  hasWiki : Bool
  isPrivate : Bool
deriving DecidableEq, Repr

/-- The rate-limit header fields and the pagination cursor carried by a
go-github Response. -/
structure PageResp where
  rateRemaining : Nat
  rateReset : Int
  nextPage : Nat
deriving DecidableEq, Repr

/-- The (repos, response, error) triple of one list call. A none
response models a nil go-github Response pointer. -/
structure FetchResult where
  repos : List ApiRepo
  resp : Option PageResp
  err : Option String

/-- The repository list API: client.Repositories.ListByOrg and
client.Repositories.ListByUser, as oracle functions of the account name,
the list options sent, and the time at which the call is made. -/
structure RepoApi where
  listByOrg : String → ListOptions → Int → FetchResult
  listByUser : String → ListOptions → Int → FetchResult

/-- Construction of a Repository from an API record, as in the loop
body of getRepositories (IsPublic is the negation of Private). -/
def mkRepository (r : ApiRepo) : Repository :=
  ⟨r.name, r.htmlURL, r.hasWiki, !r.isPrivate⟩

/-- handleRateLimit from main.go, as the duration it sleeps: nonzero
exactly when the response is non-nil with zero remaining quota and a
reset time still in the future, in which case the process sleeps until
that reset time. -/
def handleRateLimit (now : Int) (resp : Option PageResp) : Int :=
  match resp with
  | some pr =>
    if pr.rateRemaining == 0 then
      if pr.rateReset - now > 0 then pr.rateReset - now else 0
    else 0
  | none => 0

/-- The Go test resp != nil && resp.Rate.Remaining == 0 guarding the
retry of a failed fetch. -/
def rateLimited : Option PageResp → Bool
  | some pr => pr.rateRemaining == 0
  | none => false

/-- The endpoint choice of getRepositories: ListByOrg when the account
type is "org", ListByUser otherwise. -/
def doFetch (api : RepoApi) (accountType accountName : String)
    (opts : ListOptions) (now : Int) : FetchResult :=
  if accountType == "org" then api.listByOrg accountName opts now
  else api.listByUser accountName opts now

/-- The endpoint tag recorded in the fetch event. -/
def endpointOf (accountType : String) : String :=
  if accountType == "org" then "org" else "user"

/-- The mutable state of the getRepositories loop: the current clock,
the list options (Page is updated in place), and the accumulator. -/
structure LoopState where
  now : Int
  opts : ListOptions
  acc : List Repository

/-- One iteration of the getRepositories for-loop. Returns the events of
the iteration and either the next loop state (inl, the Go continue /
fall-through to the next page), a final result (inr), or none for the
nil-response dereference the Go code would crash on. -/
def getRepositoriesStep (api : RepoApi) (accountType accountName : String)
    (s : LoopState) :
    List Ev × Option (LoopState ⊕ Except String (List Repository)) :=
  let r := doFetch api accountType accountName s.opts s.now
  let fetchEv : Ev := .fetch (endpointOf accountType) accountName s.opts
  match r.err with
  | some e =>
    let d := handleRateLimit s.now r.resp
    let evs := fetchEv :: (if d > 0 then [Ev.sleep d] else [])
    if rateLimited r.resp then
      (evs, some (.inl ⟨s.now + d, s.opts, s.acc⟩))
    else
      (evs, some (.inr (.error e)))
  | none =>
    let acc := s.acc ++ (r.repos.filter (fun repo => !repo.isPrivate)).map mkRepository
    let d := handleRateLimit s.now r.resp
    let evs := fetchEv :: (if d > 0 then [Ev.sleep d] else [])
    match r.resp with
    | none => (evs, none)
    | some pr =>
      if pr.nextPage == 0 then (evs, some (.inr (.ok acc)))
      else (evs, some (.inl ⟨s.now + d, ⟨s.opts.perPage, pr.nextPage⟩, acc⟩))

/-- The getRepositories loop, fuel-indexed: iterates
getRepositoriesStep, concatenating event traces; a none value means the
fuel ran out (the Go loop is still running) or the step was undefined. -/
def getRepositoriesAux (api : RepoApi) (accountType accountName : String) :
    Nat → LoopState → List Ev × Option (Except String (List Repository))
  | 0, _ => ([], none)
  | fuel + 1, s =>
    match getRepositoriesStep api accountType accountName s with
    | (evs, none) => (evs, none)
    | (evs, some (.inr res)) => (evs, some res)
    | (evs, some (.inl s1)) =>
      let rest := getRepositoriesAux api accountType accountName fuel s1
      (evs ++ rest.1, rest.2)

/-- getRepositories from main.go: starts with PerPage 100 and Page 0, an
empty accumulator, and the given start time. -/
def getRepositories (api : RepoApi) (accountType accountName : String)
    (startNow : Int) (fuel : Nat) :
    List Ev × Option (Except String (List Repository)) :=
  getRepositoriesAux api accountType accountName fuel ⟨startNow, ⟨100, 0⟩, []⟩

/-- The repositories one successful page contributes: the non-private
records, converted. -/
def pageContribution (r : FetchResult) : List Repository :=
  (r.repos.filter (fun repo => !repo.isPrivate)).map mkRepository

theorem getRepositoriesStep_inl_acc (api : RepoApi) (aT aN : String)
    (s s1 : LoopState)
    (h : (getRepositoriesStep api aT aN s).2 = some (.inl s1)) :
    s1.acc = s.acc ∨
    s1.acc = s.acc ++ pageContribution (doFetch api aT aN s.opts s.now) := by
  unfold getRepositoriesStep at h
  dsimp only at h
  split at h
  · split at h
    · simp at h
      subst h
      left
      rfl
    · simp at h
  · split at h
    · simp at h
    · split at h
      · simp at h
      · simp at h
        subst h
        right
        rfl

theorem getRepositoriesStep_ok (api : RepoApi) (aT aN : String)
    (s : LoopState) (res : List Repository)
    (h : (getRepositoriesStep api aT aN s).2 = some (.inr (.ok res))) :
    res = s.acc ++ pageContribution (doFetch api aT aN s.opts s.now) := by
  unfold getRepositoriesStep at h
  dsimp only at h
  split at h
  · split at h <;> simp at h
  · split at h
    · simp at h
    · split at h
      · simp at h
        subst h
        rfl
      · simp at h

theorem pageContribution_public (r : FetchResult) :
    ∀ x ∈ pageContribution r, x.isPublic = true := by
  intro x hx
  simp [pageContribution, List.mem_map, List.mem_filter] at hx
  rcases hx with ⟨a, ⟨_, hpriv⟩, hmk⟩
  rw [← hmk]
  simp [mkRepository, hpriv]

theorem getRepositoriesAux_public (api : RepoApi) (aT aN : String) :
    ∀ (fuel : Nat) (s : LoopState),
      (∀ x ∈ s.acc, x.isPublic = true) →
      ∀ res, (getRepositoriesAux api aT aN fuel s).2 = some (.ok res) →
      ∀ x ∈ res, x.isPublic = true := by
  intro fuel
  induction fuel with
  | zero =>
    intro s hacc res hres
    simp [getRepositoriesAux] at hres
  | succ n ih =>
    intro s hacc res hres
    rw [getRepositoriesAux] at hres
    rcases hstep : getRepositoriesStep api aT aN s with ⟨evs, out⟩
    rw [hstep] at hres
    match out with
    | none => simp at hres
    | some (.inr r) =>
      simp at hres
      rw [hres] at hstep
      have hr := getRepositoriesStep_ok api aT aN s res (by rw [hstep])
      intro x hx
      rw [hr] at hx
      rcases List.mem_append.mp hx with hx | hx
      · exact hacc x hx
      · exact pageContribution_public _ x hx
    | some (.inl s1) =>
      simp at hres
      have hinv := getRepositoriesStep_inl_acc api aT aN s s1 (by rw [hstep])
      have hacc1 : ∀ x ∈ s1.acc, x.isPublic = true := by
        rcases hinv with hinv | hinv <;> rw [hinv]
        · exact hacc
        · intro x hx
          rcases List.mem_append.mp hx with hx | hx
          · exact hacc x hx
          · exact pageContribution_public _ x hx
      exact ih s1 hacc1 res hres

/-- C5: every Repository returned by getRepositories has IsPublic true;
a repository the API reports as private is dropped by the loop (its
conversion would carry IsPublic false, and no returned element does). -/
theorem getRepositories_public (api : RepoApi) (aT aN : String)
    (startNow : Int) (fuel : Nat) (res : List Repository)
    (h : (getRepositories api aT aN startNow fuel).2 = some (.ok res)) :
    ∀ x ∈ res, x.isPublic = true :=
  getRepositoriesAux_public api aT aN fuel ⟨startNow, ⟨100, 0⟩, []⟩
    (by intro x hx; simp at hx) res h

/-- Witness for C5: a single-page API answering one public and one
private repository; the result holds the public one only. -/
theorem getRepositories_public_witness :
    (getRepositories
      ⟨fun _ _ _ => ⟨[⟨"pub", "u1", true, false⟩, ⟨"priv", "u2", true, true⟩],
        some ⟨10, 0, 0⟩, none⟩,
       fun _ _ _ => ⟨[], some ⟨10, 0, 0⟩, none⟩⟩
      "org" "acct" 0 1).2 = some (.ok [⟨"pub", "u1", true, true⟩]) ∧
    ∀ x ∈ [(⟨"pub", "u1", true, true⟩ : Repository)], x.isPublic = true := by
  constructor
  · rfl
  · have h := getRepositories_public
      ⟨fun _ _ _ => ⟨[⟨"pub", "u1", true, false⟩, ⟨"priv", "u2", true, true⟩],
        some ⟨10, 0, 0⟩, none⟩,
       fun _ _ _ => ⟨[], some ⟨10, 0, 0⟩, none⟩⟩
      "org" "acct" 0 1 [⟨"pub", "u1", true, true⟩] rfl
    exact h

theorem getRepositoriesStep_events (api : RepoApi) (aT aN : String) (s : LoopState) :
    (getRepositoriesStep api aT aN s).1 =
      .fetch (endpointOf aT) aN s.opts ::
        (if handleRateLimit s.now (doFetch api aT aN s.opts s.now).resp > 0
         then [Ev.sleep (handleRateLimit s.now (doFetch api aT aN s.opts s.now).resp)]
         else []) := by
  unfold getRepositoriesStep
  dsimp only
  split
  · split <;> rfl
  · split
    · rfl
    · split <;> rfl

theorem getRepositoriesStep_inl_perPage (api : RepoApi) (aT aN : String)
    (s s1 : LoopState)
    (h : (getRepositoriesStep api aT aN s).2 = some (.inl s1)) :
    s1.opts.perPage = s.opts.perPage := by
  unfold getRepositoriesStep at h
  dsimp only at h
  split at h
  · split at h
    · simp at h
      subst h
      rfl
    · simp at h
  · split at h
    · simp at h
    · split at h
      · simp at h
      · simp at h
        subst h
        rfl

theorem getRepositoriesAux_perPage (api : RepoApi) (aT aN : String) :
    ∀ (fuel : Nat) (s : LoopState),
      ∀ ev ∈ (getRepositoriesAux api aT aN fuel s).1,
      ∀ ep nm o, ev = .fetch ep nm o → o.perPage = s.opts.perPage := by
  intro fuel
  induction fuel with
  | zero =>
    intro s ev hev
    simp [getRepositoriesAux] at hev
  | succ n ih =>
    intro s ev hev ep nm o hfetch
    rw [getRepositoriesAux] at hev
    rcases hstep : getRepositoriesStep api aT aN s with ⟨evs, out⟩
    rw [hstep] at hev
    have hevs : ∀ e ∈ evs, ∀ ep1 nm1 o1, e = .fetch ep1 nm1 o1 →
        o1.perPage = s.opts.perPage := by
      intro e he ep1 nm1 o1 he1
      have h1 : evs = (getRepositoriesStep api aT aN s).1 := by rw [hstep]
      rw [h1, getRepositoriesStep_events] at he
      rcases List.mem_cons.mp he with he | he
      · rw [he] at he1
        cases he1
        rfl
      · split at he <;> simp at he
        rw [he] at he1
        exact absurd he1 (by simp)
    match out with
    | none =>
      exact hevs ev hev ep nm o hfetch
    | some (.inr r) =>
      exact hevs ev hev ep nm o hfetch
    | some (.inl s1) =>
      simp at hev
      rcases hev with hev | hev
      · exact hevs ev hev ep nm o hfetch
      · have hpp := getRepositoriesStep_inl_perPage api aT aN s s1 (by rw [hstep])
        rw [← hpp]
        exact ih s1 ev hev ep nm o hfetch

theorem getRepositoriesStep_success (api : RepoApi) (aT aN : String)
    (s : LoopState) (pr : PageResp)
    (hne : (doFetch api aT aN s.opts s.now).err = none)
    (hresp : (doFetch api aT aN s.opts s.now).resp = some pr) :
    (pr.nextPage ≠ 0 →
      (getRepositoriesStep api aT aN s).2 =
        some (.inl ⟨s.now + handleRateLimit s.now (some pr),
          ⟨s.opts.perPage, pr.nextPage⟩,
          s.acc ++ pageContribution (doFetch api aT aN s.opts s.now)⟩)) ∧
    (pr.nextPage = 0 →
      (getRepositoriesStep api aT aN s).2 =
        some (.inr (.ok
          (s.acc ++ pageContribution (doFetch api aT aN s.opts s.now))))) := by
  constructor
  · intro hnp
    unfold getRepositoriesStep
    dsimp only
    rw [hne]
    dsimp only
    rw [hresp]
    simp [hnp, pageContribution]
  · intro hnp
    unfold getRepositoriesStep
    dsimp only
    rw [hne]
    dsimp only
    rw [hresp]
    simp [hnp, pageContribution]

/-- The three-page API of the pagination test: page 0 answers 100
repositories and points at page 2, page 2 answers 100 more and points at
page 3, page 3 answers one and reports no further page. -/
def threePageApi : RepoApi :=
  ⟨fun _ opts _ =>
    if opts.page == 0 then
      ⟨(List.range 100).map (fun i => ⟨"a" ++ toString i, "ua" ++ toString i, true, false⟩),
       some ⟨50, 0, 2⟩, none⟩
    else if opts.page == 2 then
      ⟨(List.range 100).map (fun i => ⟨"b" ++ toString i, "ub" ++ toString i, true, false⟩),
       some ⟨50, 0, 3⟩, none⟩
    else if opts.page == 3 then
      ⟨[⟨"c0", "uc0", true, false⟩], some ⟨50, 0, 0⟩, none⟩
    else ⟨[], some ⟨50, 0, 0⟩, none⟩,
   fun _ _ _ => ⟨[], some ⟨50, 0, 0⟩, none⟩⟩

/-- The 201 repositories the three-page API holds, in page order. -/
def threePageExpected : List Repository :=
  (List.range 100).map (fun i => ⟨"a" ++ toString i, "ua" ++ toString i, true, true⟩)
    ++ ((List.range 100).map (fun i => ⟨"b" ++ toString i, "ub" ++ toString i, true, true⟩)
    ++ [⟨"c0", "uc0", true, true⟩])

/-- C6: the lister always sends PerPage 100; a successful page fetch
with a nonzero next-page cursor continues the loop at that page (with
everything fetched so far kept, in order), a successful fetch with a
zero cursor ends the loop; and on the concrete three-page API answering
100, 100 and 1 repositories it returns exactly the 201 repositories in
page order. -/
theorem getRepositories_pagination :
    (∀ (api : RepoApi) (aT aN : String) (t : Int) (fuel : Nat),
      ∀ ev ∈ (getRepositories api aT aN t fuel).1,
      ∀ ep nm o, ev = .fetch ep nm o → o.perPage = 100) ∧
    (∀ (api : RepoApi) (aT aN : String) (s : LoopState) (pr : PageResp),
      (doFetch api aT aN s.opts s.now).err = none →
      (doFetch api aT aN s.opts s.now).resp = some pr →
      (pr.nextPage ≠ 0 →
        (getRepositoriesStep api aT aN s).2 =
          some (.inl ⟨s.now + handleRateLimit s.now (some pr),
            ⟨s.opts.perPage, pr.nextPage⟩,
            s.acc ++ pageContribution (doFetch api aT aN s.opts s.now)⟩)) ∧
      (pr.nextPage = 0 →
        (getRepositoriesStep api aT aN s).2 =
          some (.inr (.ok
            (s.acc ++ pageContribution (doFetch api aT aN s.opts s.now)))))) ∧
    (getRepositories threePageApi "org" "acct" 0 3).2 =
      some (.ok threePageExpected) ∧
    threePageExpected.length = 201 := by
  refine ⟨?_, ?_, ?_, ?_⟩
  · intro api aT aN t fuel ev hev ep nm o hfetch
    exact getRepositoriesAux_perPage api aT aN fuel ⟨t, ⟨100, 0⟩, []⟩ ev hev ep nm o hfetch
  · intro api aT aN s pr hne hresp
    exact getRepositoriesStep_success api aT aN s pr hne hresp
  · rfl
  · rfl

/-- Witness for C6: on the three-page API's run, the first recorded
fetch event carries PerPage 100, and page 3 (cursor 0) ends the loop. -/
theorem getRepositories_pagination_witness :
    (ListOptions.mk 100 0).perPage = 100 ∧
    (getRepositoriesStep threePageApi "org" "acct" ⟨0, ⟨100, 3⟩, []⟩).2 =
      some (.inr (.ok [⟨"c0", "uc0", true, true⟩])) := by
  constructor
  · exact getRepositories_pagination.1 threePageApi "org" "acct" 0 3
      (.fetch "org" "acct" ⟨100, 0⟩) (by decide) "org" "acct" ⟨100, 0⟩ rfl
  · have h := (getRepositories_pagination.2.1 threePageApi "org" "acct"
      ⟨0, ⟨100, 3⟩, []⟩ ⟨50, 0, 0⟩ rfl rfl).2 rfl
    simpa [pageContribution] using h

theorem handleRateLimit_pos (now : Int) (pr : PageResp)
    (h0 : pr.rateRemaining = 0) (hf : pr.rateReset > now) :
    handleRateLimit now (some pr) = pr.rateReset - now := by
  simp [handleRateLimit, h0]
  omega

theorem handleRateLimit_notLimited (now : Int) (resp : Option PageResp)
    (h : rateLimited resp = false) : handleRateLimit now resp = 0 := by
  cases resp with
  | none => rfl
  | some pr =>
    simp [rateLimited] at h
    simp [handleRateLimit, h]

theorem getRepositoriesStep_rateLimited (api : RepoApi) (aT aN : String)
    (s : LoopState) (e : String)
    (herr : (doFetch api aT aN s.opts s.now).err = some e)
    (hrl : rateLimited (doFetch api aT aN s.opts s.now).resp = true) :
    getRepositoriesStep api aT aN s =
      (.fetch (endpointOf aT) aN s.opts ::
        (if handleRateLimit s.now (doFetch api aT aN s.opts s.now).resp > 0
         then [Ev.sleep (handleRateLimit s.now (doFetch api aT aN s.opts s.now).resp)]
         else []),
       some (.inl ⟨s.now + handleRateLimit s.now (doFetch api aT aN s.opts s.now).resp,
         s.opts, s.acc⟩)) := by
  unfold getRepositoriesStep
  dsimp only
  rw [herr]
  simp [hrl]

theorem getRepositoriesStep_errAborts (api : RepoApi) (aT aN : String)
    (s : LoopState) (e : String)
    (herr : (doFetch api aT aN s.opts s.now).err = some e)
    (hrl : rateLimited (doFetch api aT aN s.opts s.now).resp = false) :
    getRepositoriesStep api aT aN s =
      ([.fetch (endpointOf aT) aN s.opts], some (.inr (.error e))) := by
  unfold getRepositoriesStep
  dsimp only
  rw [herr]
  simp [hrl, handleRateLimit_notLimited s.now _ hrl]

/-- C7: (i) a failed page fetch whose response reports zero remaining
quota and a reset time still in the future makes the lister sleep
exactly until that reset time and retry with the list options — in
particular the page — unchanged; (ii) a successful page fetch with zero
remaining quota and a future reset likewise sleeps until the reset time
before the next page request is issued; (iii) there is no retry cap: an
API that keeps failing rate-limited on the same options never makes the
loop give up with an error — however much fuel is granted, the loop is
still fetching those same options or sleeping. -/
theorem getRepositories_rateLimitWait :
    (∀ (api : RepoApi) (aT aN : String) (s : LoopState) (e : String) (pr : PageResp),
      (doFetch api aT aN s.opts s.now).err = some e →
      (doFetch api aT aN s.opts s.now).resp = some pr →
      pr.rateRemaining = 0 → pr.rateReset > s.now →
      getRepositoriesStep api aT aN s =
        ([.fetch (endpointOf aT) aN s.opts, .sleep (pr.rateReset - s.now)],
         some (.inl ⟨pr.rateReset, s.opts, s.acc⟩))) ∧
    (∀ (api : RepoApi) (aT aN : String) (s : LoopState) (pr : PageResp),
      (doFetch api aT aN s.opts s.now).err = none →
      (doFetch api aT aN s.opts s.now).resp = some pr →
      pr.rateRemaining = 0 → pr.rateReset > s.now → pr.nextPage ≠ 0 →
      getRepositoriesStep api aT aN s =
        ([.fetch (endpointOf aT) aN s.opts, .sleep (pr.rateReset - s.now)],
         some (.inl ⟨pr.rateReset, ⟨s.opts.perPage, pr.nextPage⟩,
           s.acc ++ pageContribution (doFetch api aT aN s.opts s.now)⟩))) ∧
    (∀ (api : RepoApi) (aT aN : String) (opts0 : ListOptions) (acc0 : List Repository),
      (∀ t : Int, (doFetch api aT aN opts0 t).err.isSome = true ∧
        rateLimited (doFetch api aT aN opts0 t).resp = true) →
      ∀ (fuel : Nat) (now : Int),
        (getRepositoriesAux api aT aN fuel ⟨now, opts0, acc0⟩).2 = none ∧
        ∀ ev ∈ (getRepositoriesAux api aT aN fuel ⟨now, opts0, acc0⟩).1,
          ev = .fetch (endpointOf aT) aN opts0 ∨ ∃ d, ev = .sleep d) := by
  refine ⟨?_, ?_, ?_⟩
  · intro api aT aN s e pr herr hresp h0 hf
    have hrl : rateLimited (doFetch api aT aN s.opts s.now).resp = true := by
      rw [hresp]
      simp [rateLimited, h0]
    have hd : handleRateLimit s.now (doFetch api aT aN s.opts s.now).resp
        = pr.rateReset - s.now := by
      rw [hresp]
      exact handleRateLimit_pos s.now pr h0 hf
    rw [getRepositoriesStep_rateLimited api aT aN s e herr hrl, hd]
    have hpos : pr.rateReset - s.now > 0 := by omega
    simp [hpos]
  · intro api aT aN s pr hne hresp h0 hf hnp
    have hd : handleRateLimit s.now (doFetch api aT aN s.opts s.now).resp
        = pr.rateReset - s.now := by
      rw [hresp]
      exact handleRateLimit_pos s.now pr h0 hf
    have h1 := getRepositoriesStep_events api aT aN s
    have h2 := (getRepositoriesStep_success api aT aN s pr hne hresp).1 hnp
    have hd2 : handleRateLimit s.now (some pr) = pr.rateReset - s.now :=
      handleRateLimit_pos s.now pr h0 hf
    have hpos : pr.rateReset - s.now > 0 := by omega
    rcases hpair : getRepositoriesStep api aT aN s with ⟨evs, out⟩
    rw [hpair] at h1 h2
    simp only at h1 h2
    rw [hd] at h1
    rw [hd2] at h2
    simp [hpos] at h1
    rw [h1, h2]
    have : s.now + (pr.rateReset - s.now) = pr.rateReset := by omega
    rw [this]
  · intro api aT aN opts0 acc0 hfail fuel
    induction fuel with
    | zero =>
      intro now
      constructor
      · simp [getRepositoriesAux]
      · intro ev hev
        simp [getRepositoriesAux] at hev
    | succ n ih =>
      intro now
      rcases hfail now with ⟨hsome, hrl⟩
      rcases Option.isSome_iff_exists.mp hsome with ⟨e, herr⟩
      have hstep := getRepositoriesStep_rateLimited api aT aN ⟨now, opts0, acc0⟩ e herr hrl
      rw [getRepositoriesAux, hstep]
      dsimp only
      rcases ih (now + handleRateLimit now (doFetch api aT aN opts0 now).resp) with ⟨ihnone, ihtr⟩
      constructor
      · exact ihnone
      · intro ev hev
        rcases List.mem_append.mp hev with hev | hev
        · rcases List.mem_cons.mp hev with hev | hev
          · left
            exact hev
          · right
            split at hev <;> simp at hev
            exact ⟨_, hev⟩
        · exact ihtr ev hev

/-- Witness for C7: an organization API that is rate limited (zero
remaining, reset at time 100) and fails; from time 0 the lister sleeps
100 time units and retries page 0 of the same options. -/
theorem getRepositories_rateLimitWait_witness :
    getRepositoriesStep
      ⟨fun _ _ _ => ⟨[], some ⟨0, 100, 1⟩, some "rate limited"⟩,
       fun _ _ _ => ⟨[], some ⟨0, 100, 1⟩, some "rate limited"⟩⟩
      "org" "acct" ⟨0, ⟨100, 0⟩, []⟩ =
      ([.fetch "org" "acct" ⟨100, 0⟩, .sleep 100],
       some (.inl ⟨100, ⟨100, 0⟩, []⟩)) := by
  have h := getRepositories_rateLimitWait.1
    ⟨fun _ _ _ => ⟨[], some ⟨0, 100, 1⟩, some "rate limited"⟩,
     fun _ _ _ => ⟨[], some ⟨0, 100, 1⟩, some "rate limited"⟩⟩
    "org" "acct" ⟨0, ⟨100, 0⟩, []⟩ "rate limited" ⟨0, 100, 1⟩
    rfl rfl rfl (by decide)
  simpa using h

/-- C8: a page fetch failing with anything other than a rate-limit
condition makes the lister return that very error at once: the loop body
runs exactly once more (one fetch event, no sleep), no further page is
requested, and the error is surfaced. -/
theorem getRepositories_errorAborts (api : RepoApi) (aT aN : String)
    (s : LoopState) (e : String) (fuel : Nat)
    (herr : (doFetch api aT aN s.opts s.now).err = some e)
    (hrl : rateLimited (doFetch api aT aN s.opts s.now).resp = false) :
    getRepositoriesAux api aT aN (fuel + 1) s =
      ([.fetch (endpointOf aT) aN s.opts], some (.error e)) := by
  rw [getRepositoriesAux, getRepositoriesStep_errAborts api aT aN s e herr hrl]

/-- Witness for C8: an API failing with a 500-class error and remaining
quota 5; the listing stops at once and surfaces the error. -/
theorem getRepositories_errorAborts_witness :
    getRepositoriesAux
      ⟨fun _ _ _ => ⟨[], some ⟨5, 0, 0⟩, some "server error"⟩,
       fun _ _ _ => ⟨[], some ⟨5, 0, 0⟩, some "server error"⟩⟩
      "org" "acct" 4 ⟨0, ⟨100, 0⟩, []⟩ =
      ([.fetch "org" "acct" ⟨100, 0⟩], some (.error "server error")) :=
  getRepositories_errorAborts
    ⟨fun _ _ _ => ⟨[], some ⟨5, 0, 0⟩, some "server error"⟩,
     fun _ _ _ => ⟨[], some ⟨5, 0, 0⟩, some "server error"⟩⟩
    "org" "acct" ⟨0, ⟨100, 0⟩, []⟩ "server error" 3 rfl rfl

/-- What one scan (or the whole process) observably does: events,
stdout lines, log lines, and whether the embedded execution ran to
completion within the fuel given. -/
structure ScanOut where
  events : List Ev
  stdout : List String
  logs : List String
  complete : Bool
deriving DecidableEq, Repr

/-- The tail of scanAccount after the account type is settled: list the
repositories and probe each wiki in order, as in main.go (a repository
fetch error is logged and the scan of this account stops). evs0 carries
the events of a preceding account-type detection. -/
def scanResolved (rapi : RepoApi) (wenv : WikiEnv) (fuel : Nat) (now : Int)
    (accountType accountName : String) (evs0 : List Ev) : ScanOut :=
  let r := getRepositories rapi accountType accountName now fuel
  match r.2 with
  | none => ⟨evs0 ++ r.1, [], [], false⟩
  | some (.error e) => ⟨evs0 ++ r.1, [], ["Error fetching repositories: " ++ e], true⟩
  | some (.ok repos) =>
    let outs := repos.map (fun repo => checkWiki wenv repo)
    ⟨evs0 ++ r.1 ++ (outs.map WikiOut.events).flatten,
     (outs.map WikiOut.stdout).flatten, [], true⟩

/-- scanAccount from main.go: rejects the raw input when it is the empty
string, parses the optional kind marker, auto-detects the account type
when none was given (a detection error is logged and the account
skipped), then lists repositories and probes each wiki. -/
def scanAccount (api : AccountApi) (rapi : RepoApi) (wenv : WikiEnv)
    (fuel : Nat) (now : Int) (input : String) : ScanOut :=
  if input == "" then ⟨[], [], ["Account name cannot be empty"], true⟩
  else
    let p := parseAccountInput input
    if p.1 == "unknown" then
      let r := getAccountType api p.2
      match r.1.2 with
      | some e => ⟨r.2, [], ["Error detecting account type: " ++ e], true⟩
      | none => scanResolved rapi wenv fuel now r.1.1 p.2 r.2
    else scanResolved rapi wenv fuel now p.1 p.2 []

/-- main from main.go. With a CLI argument, scans that single account;
otherwise scans each (whitespace-trimmed) stdin line and, if the scanner
ends with a read error, writes the diagnostic line to the log. No path
of main calls os.Exit or a fatal logger, so the process exit status —
the second component — is 0 on every input. -/
def mainGo (api : AccountApi) (rapi : RepoApi) (wenv : WikiEnv)
    (fuel : Nat) (now : Int) (args : List String)
    (stdinLines : List String) (stdinErr : Option String) : ScanOut × Nat :=
  match args with
  | a :: _ => (scanAccount api rapi wenv fuel now a, 0)
  | [] =>
    let outs := stdinLines.map
      (fun line => scanAccount api rapi wenv fuel now (goTrimSpace line))
    let combined : ScanOut :=
      ⟨(outs.map ScanOut.events).flatten, (outs.map ScanOut.stdout).flatten,
       (outs.map ScanOut.logs).flatten, outs.all (fun o => o.complete)⟩
    match stdinErr with
    | some e =>
      ({ combined with logs := combined.logs ++ ["Error reading from stdin: " ++ e] }, 0)
    | none => (combined, 0)

theorem getRepositoriesAux_trace_cons (api : RepoApi) (aT aN : String)
    (fuel : Nat) (s : LoopState) :
    ∃ tl, (getRepositoriesAux api aT aN (fuel + 1) s).1 =
      .fetch (endpointOf aT) aN s.opts :: tl := by
  rw [getRepositoriesAux]
  rcases hstep : getRepositoriesStep api aT aN s with ⟨evs, out⟩
  have hevs : evs = .fetch (endpointOf aT) aN s.opts ::
      (if handleRateLimit s.now (doFetch api aT aN s.opts s.now).resp > 0
       then [Ev.sleep (handleRateLimit s.now (doFetch api aT aN s.opts s.now).resp)]
       else []) := by
    have h := getRepositoriesStep_events api aT aN s
    rw [hstep] at h
    exact h
  match out with
  | none =>
    exact ⟨_, by rw [hevs]⟩
  | some (.inr r) =>
    exact ⟨_, by rw [hevs]⟩
  | some (.inl s1) =>
    refine ⟨(if handleRateLimit s.now (doFetch api aT aN s.opts s.now).resp > 0
       then [Ev.sleep (handleRateLimit s.now (doFetch api aT aN s.opts s.now).resp)]
       else []) ++ (getRepositoriesAux api aT aN fuel s1).1, ?_⟩
    dsimp only
    rw [hevs]
    simp

theorem scanResolved_events_head (rapi : RepoApi) (wenv : WikiEnv)
    (fuel : Nat) (now : Int) (aT aN : String) :
    (scanResolved rapi wenv (fuel + 1) now aT aN []).events.head? =
      some (.fetch (endpointOf aT) aN ⟨100, 0⟩) := by
  rcases getRepositoriesAux_trace_cons rapi aT aN fuel ⟨now, ⟨100, 0⟩, []⟩ with ⟨tl, htl⟩
  have hg : (getRepositories rapi aT aN now (fuel + 1)).1 =
      .fetch (endpointOf aT) aN ⟨100, 0⟩ :: tl := htl
  unfold scanResolved
  dsimp only
  split <;> simp [hg]

/-- C10: the empty-input rejection of scanAccount tests the raw input
before the kind marker is stripped: the inputs "org:" and "user:" are
not rejected — each proceeds to a repository listing for the empty
account name (the first event is a page fetch with account name "") —
while only the raw empty string takes the rejection branch. -/
theorem scanAccount_rejectsRawOnly (api : AccountApi) (rapi : RepoApi)
    (wenv : WikiEnv) (fuel : Nat) (now : Int) :
    (scanAccount api rapi wenv (fuel + 1) now "org:").events.head? =
      some (.fetch "org" "" ⟨100, 0⟩) ∧
    (scanAccount api rapi wenv (fuel + 1) now "user:").events.head? =
      some (.fetch "user" "" ⟨100, 0⟩) ∧
    scanAccount api rapi wenv (fuel + 1) now "" =
      ⟨[], [], ["Account name cannot be empty"], true⟩ := by
  refine ⟨?_, ?_, rfl⟩
  · have hp : parseAccountInput "org:" = ("org", "") := rfl
    simp only [scanAccount, hp]
    norm_num
    exact scanResolved_events_head rapi wenv fuel now "org" ""
  · have hp : parseAccountInput "user:" = ("user", "") := rfl
    simp only [scanAccount, hp]
    norm_num
    exact scanResolved_events_head rapi wenv fuel now "user" ""

/-- Witness for C10 (none of the hypotheses are propositions, but a
concrete run is still useful): with a one-page empty answer for the
empty account name, scanning "org:" issues exactly one fetch for
account "". -/
theorem scanAccount_rejectsRawOnly_witness :
    (scanAccount
      ⟨fun _ => ⟨true, some 200, none⟩, fun _ => ⟨true, some 200, none⟩⟩
      ⟨fun _ _ _ => ⟨[], some ⟨9, 0, 0⟩, none⟩, fun _ _ _ => ⟨[], some ⟨9, 0, 0⟩, none⟩⟩
      ⟨fun _ => true, fun _ => none⟩ 1 0 "org:").events.head? =
      some (.fetch "org" "" ⟨100, 0⟩) :=
  (scanAccount_rejectsRawOnly
    ⟨fun _ => ⟨true, some 200, none⟩, fun _ => ⟨true, some 200, none⟩⟩
    ⟨fun _ _ _ => ⟨[], some ⟨9, 0, 0⟩, none⟩, fun _ _ _ => ⟨[], some ⟨9, 0, 0⟩, none⟩⟩
    ⟨fun _ => true, fun _ => none⟩ 0 0).1

/-- Counterexample to C9 as stated: when reading stdin fails (no CLI
argument, zero lines read, a read error reported), the embedded main
logs the diagnostic line and the process finishes with exit status 0,
not a non-zero status — main.go reports the scanner error through
log.Printf and returns normally. -/
theorem mainGo_stdinError_zeroExit :
    (mainGo
      ⟨fun _ => ⟨false, some 404, some "x"⟩, fun _ => ⟨false, some 404, some "x"⟩⟩
      ⟨fun _ _ _ => ⟨[], some ⟨9, 0, 0⟩, none⟩, fun _ _ _ => ⟨[], some ⟨9, 0, 0⟩, none⟩⟩
      ⟨fun _ => true, fun _ => none⟩ 1 0 [] [] (some "read failure")).2 = 0 ∧
    (mainGo
      ⟨fun _ => ⟨false, some 404, some "x"⟩, fun _ => ⟨false, some 404, some "x"⟩⟩
      ⟨fun _ _ _ => ⟨[], some ⟨9, 0, 0⟩, none⟩, fun _ _ _ => ⟨[], some ⟨9, 0, 0⟩, none⟩⟩
      ⟨fun _ => true, fun _ => none⟩ 1 0 [] [] (some "read failure")).1.logs =
      ["Error reading from stdin: read failure"] :=
  ⟨rfl, rfl⟩

/-- C9 amended: if reading account identifiers from stdin fails, the
process logs "Error reading from stdin: ..." as its last log line and
terminates normally with exit status 0 (it does not exit non-zero). -/
theorem mainGo_stdinError_logsAndReturns (api : AccountApi) (rapi : RepoApi)
    (wenv : WikiEnv) (fuel : Nat) (now : Int) (lines : List String) (e : String) :
    (mainGo api rapi wenv fuel now [] lines (some e)).2 = 0 ∧
    (mainGo api rapi wenv fuel now [] lines (some e)).1.logs.getLast? =
      some ("Error reading from stdin: " ++ e) := by
  constructor
  · rfl
  · show (((lines.map
      (fun line => scanAccount api rapi wenv fuel now (goTrimSpace line))).map
        ScanOut.logs).flatten ++ ["Error reading from stdin: " ++ e]).getLast? = _
    simp

end GitWiki
